import Mathlib

/-!
Verification of the tab/session core of the amfora browser.

The development shallowly embeds two source files:
* structs/page.go  — the Page record and its Size() method;
* display/tab.go   — the tab record, its history, scroll, status-bar
  bookkeeping, and the key handler installed by makeNewTab.

Go machine integers are modelled as unbounded Int (no arithmetic here comes
close to overflow); Go slice/string indexing that can panic is modelled with
Option (none = runtime panic); Go strconv.Atoi's discarded error is modelled
by Option.getD 0, matching the zero value Atoi returns on a syntax error.
-/

namespace Amfora

/-- Go: `type Mediatype string` (structs/page.go). -/
abbrev Mediatype := String

/-- Go constant TextGemini. -/
def TextGemini : Mediatype := "text/gemini"

/-- Go constant TextPlain. -/
def TextPlain : Mediatype := "text/plain"

/-- Go constant TextAnsi. -/
def TextAnsi : Mediatype := "text/x-ansi"

/-- Go: `type PageMode int` with iota constants (structs/page.go). -/
inductive PageMode where
  | ModeOff
  | ModeLinkSelect
  | ModeSearch
  deriving Repr, DecidableEq

/-- Go: `type Page struct` (structs/page.go).  `time.Time` is modelled as a
Nat tick count (zero value = 0); all other fields are direct translations. -/
structure Page where
  URL : String
  Mediatype : Mediatype
  RawMediatype : String
  Raw : String
  Content : String
  MaxPreCols : Int
  Links : List String
  Row : Int
  Column : Int
  TermWidth : Int
  Selected : String
  SelectedID : String
  Mode : PageMode
  Favicon : String
  MadeAt : Nat
  deriving Repr, DecidableEq

/-- The Go zero value `structs.Page{}`. -/
def Page.zero : Page where
  URL := ""
  Mediatype := ""
  RawMediatype := ""
  Raw := ""
  Content := ""
  MaxPreCols := 0
  Links := []
  Row := 0
  Column := 0
  TermWidth := 0
  Selected := ""
  SelectedID := ""
  Mode := PageMode.ModeOff
  Favicon := ""
  MadeAt := 0

/-- Go: `func (p *Page) Size() int` (structs/page.go).  `len` on a Go string
is its byte length, hence `String.utf8ByteSize`. -/
def Page.Size (p : Page) : Nat :=
  let n := p.Raw.utf8ByteSize + p.Content.utf8ByteSize + p.URL.utf8ByteSize
    + p.Selected.utf8ByteSize + p.SelectedID.utf8ByteSize
  p.Links.foldl (fun n l => n + l.utf8ByteSize) n

/-- Go: `type tabHistory struct` (display/tab.go). -/
structure tabHistory where
  urls : List String
  pos : Int
  deriving Repr, DecidableEq

/-- Go: `type tabMode int` with iota constants (display/tab.go). -/
inductive tabMode where
  | modeOff
  | modeLinkSelect
  deriving Repr, DecidableEq

/-- Modelled from the spec: the viewport capability (spec section 6) offered by
the external cview.TextView collaborator, which is not part of this
repository: it stores a scroll offset pair and the list of currently
highlighted region ids (`GetScrollOffset` / `ScrollTo` / `Highlight` /
`GetHighlights`). -/
structure ViewState where
  scrollRow : Int
  scrollCol : Int
  highlights : List String
  deriving Repr, DecidableEq

/-- cview's `Highlight(regionID)` at the single-argument call sites used in
display/tab.go: it replaces the stored highlight list with the given id. -/
def ViewState.Highlight (v : ViewState) (s : String) : ViewState :=
  { v with highlights := [s] }

/-- Go: `type tab struct` (display/tab.go).  The `page` and `view` pointers
are modelled as Options (none = nil); the reformat mutex carries no
sequential meaning and is omitted. -/
structure tab where
  page : Option Page
  view : Option ViewState
  mode : tabMode
  history : tabHistory
  selected : String
  selectedID : String
  barLabel : String
  barText : String
  deriving Repr, DecidableEq

/-- Modelled from the spec: the status-bar capability (spec section 6) of the
shared `bottomBar` widget, not part of this repository: a label and a text. -/
structure bottomBarState where
  label : String
  text : String
  deriving Repr, DecidableEq

/-- Go: `func makeNewTab() *tab` (display/tab.go) — the field values of the
struct literal; the installed key handler is embedded below as `doneFn`. -/
def makeNewTab : tab where
  page := some Page.zero
  view := some { scrollRow := 0, scrollCol := 0, highlights := [] }
  mode := tabMode.modeOff
  history := { urls := [], pos := 0 }
  selected := ""
  selectedID := ""
  barLabel := ""
  barText := ""

/-- Go: `func (t *tab) addToHistory(u string)` (display/tab.go).  Note the
source increments `pos` rather than setting it to `len(urls)-1`. -/
def tab.addToHistory (t : tab) (u : String) : tab :=
  let h := t.history
  let h :=
    if h.pos < (h.urls.length : Int) - 1 then
      { h with urls := h.urls.take (h.pos + 1).toNat }
    else h
  { t with history := { urls := h.urls ++ [u], pos := h.pos + 1 } }

/-- Go: `func (t *tab) pageUp()` (display/tab.go); `termH` is the global
terminal height and `/` is Go's truncated integer division. -/
def tab.pageUp (termH : Int) (t : tab) : Option tab :=
  match t.view with
  | some v =>
      some { t with view := some { v with scrollRow := v.scrollRow - (Int.tdiv termH 4) * 3 } }
  | none => none

/-- Go: `func (t *tab) pageDown()` (display/tab.go). -/
def tab.pageDown (termH : Int) (t : tab) : Option tab :=
  match t.view with
  | some v =>
      some { t with view := some { v with scrollRow := v.scrollRow + (Int.tdiv termH 4) * 3 } }
  | none => none

/-- Go `strings.HasPrefix p s`, via the character lists (for UTF-8 strings a
byte-level prefix and a character-level prefix coincide). -/
def goHasPre (p s : String) : Bool :=
  List.isPrefixOf p.toList s.toList

/-- Go: `func (t *tab) hasContent() bool` (display/tab.go). -/
def tab.hasContent (t : tab) : Bool :=
  match t.page, t.view with
  | some pg, some _ =>
      if pg.URL = "" then false
      else if goHasPre "about:" pg.URL then false
      else if pg.Content = "" then false
      else true
  | _, _ => false

/-- Go: `func (t *tab) saveScroll()` (display/tab.go). -/
def tab.saveScroll (t : tab) : Option tab :=
  match t.view, t.page with
  | some v, some pg =>
      some { t with page := some { pg with Row := v.scrollRow, Column := v.scrollCol } }
  | _, _ => none

/-- Go: `func (t *tab) applyScroll()` (display/tab.go). -/
def tab.applyScroll (t : tab) : Option tab :=
  match t.page, t.view with
  | some pg, some v =>
      some { t with view := some { v with scrollRow := pg.Row, scrollCol := pg.Column } }
  | _, _ => none

/-- Go: `func (t *tab) saveBottomBar()` (display/tab.go). -/
def tab.saveBottomBar (t : tab) (bar : bottomBarState) : tab :=
  { t with barLabel := bar.label, barText := bar.text }

/-- Go: `func (t *tab) applyBottomBar()` (display/tab.go). -/
def tab.applyBottomBar (t : tab) (bar : bottomBarState) : bottomBarState :=
  { bar with label := t.barLabel, text := t.barText }

/-- The tcell key classes distinguished by the handler in makeNewTab. -/
inductive Key where
  | enter
  | esc
  | keyTab
  | backtab
  | other
  deriving Repr, DecidableEq

/-- One primitive action performed by the key handler, in source order:
status-bar writes, viewport highlight/scroll calls, tab-field writes, the
`followLink` dispatch, and the deferred `saveBottomBar`. -/
inductive Ev where
  | barLabel (s : String)
  | barText (s : String)
  | highlight (s : String)
  | scrollHi
  | setMode (m : tabMode)
  | follow (base rel : String)
  | setSel (s : String)
  | setSelID (s : String)
  | saveBar
  deriving Repr, DecidableEq

/-- Digit-string value for `goAtoi` (none on empty or non-digit input). -/
def goDigits (l : List Char) : Option Nat :=
  if l ≠ [] ∧ l.all Char.isDigit then
    some (l.foldl (fun n c => n * 10 + (c.toNat - 48)) 0)
  else none

/-- Go `strconv.Atoi` syntax: an optional sign followed by one or more
digits; none models the error case, in which Go Atoi returns value 0. -/
def goAtoi (s : String) : Option Int :=
  match s.toList with
  | '+' :: rest => (goDigits rest).map (fun n => (n : Int))
  | '-' :: rest => (goDigits rest).map (fun n => -(n : Int))
  | l => (goDigits l).map (fun n => (n : Int))

/-- Go `strconv.Itoa`. -/
def goItoa (i : Int) : String := toString i

/-- Go slice indexing `xs[i]`: none models the out-of-range panic. -/
def goListGet (xs : List String) (i : Int) : Option String :=
  if 0 ≤ i then xs.get? i.toNat else none

/-- Go `%` on int (truncated remainder); none models the division-by-zero
panic. -/
def goTmod (a b : Int) : Option Int :=
  if b = 0 then none else some (Int.tmod a b)

/-- The bottomBar label written while a link is highlighted. -/
def linkLabel : String := "[::b]Link: [::-]"

/-- Trace of the Tab/Backtab arm of the handler after the new index `ni` has
been computed: highlight it, scroll to it, show the link in the bar, record
`selected` and `selectedID` (the latter from the OLD highlight id `sel0`,
exactly as the source does), then the deferred saveBottomBar. -/
def doneMoveEvs (escEvs : List Ev) (pg : Page) (ni : Int) (sel0 : String) : Option (List Ev) :=
  match goListGet pg.Links ni with
  | some li =>
      some (escEvs ++ [Ev.highlight (goItoa ni), Ev.scrollHi, Ev.barLabel linkLabel,
        Ev.barText li, Ev.setSel li, Ev.setSelID sel0, Ev.saveBar])
  | none => none

/-- The key handler closure installed by `view.SetDoneFunc` in makeNewTab
(display/tab.go), as the ordered trace of actions it performs; none models a
Go panic aborting the handler (a nil pointer, an out-of-range slice index, or
a `%` by zero).  `currentSelection` is read after the Esc arm, as in the
source, and `escEvs` is that arm's trace. -/
def doneFn (t : tab) (key : Key) : Option (List Ev) :=
  match t.page, t.view with
  | some pg, some v =>
    let escEvs : List Ev :=
      if key = Key.esc then
        [Ev.highlight "", Ev.barLabel "", Ev.barText pg.URL, Ev.setMode tabMode.modeOff]
      else []
    let v1 := if key = Key.esc then ViewState.Highlight v "" else v
    let currentSelection := v1.highlights
    let numSelections : Int := (pg.Links.length : Int)
    if key = Key.enter then
      if 0 < currentSelection.length ∧ 0 < pg.Links.length then
        match currentSelection with
        | sel0 :: _ =>
          match goListGet pg.Links ((goAtoi sel0).getD 0) with
          | some target =>
              some (escEvs ++ [Ev.barLabel "", Ev.setMode tabMode.modeOff,
                Ev.follow pg.URL target, Ev.saveBar])
          | none => none
        | [] => none
      else
        match goListGet pg.Links 0 with
        | some l0 =>
            some (escEvs ++ [Ev.highlight "0", Ev.scrollHi, Ev.barLabel linkLabel,
              Ev.barText l0, Ev.setSel l0, Ev.setSelID "0", Ev.saveBar])
        | none => none
    else
      match currentSelection with
      | sel0 :: _ =>
        if key = Key.keyTab then
          match goTmod ((goAtoi sel0).getD 0 + 1) numSelections with
          | some ni => doneMoveEvs escEvs pg ni sel0
          | none => none
        else if key = Key.backtab then
          match goTmod ((goAtoi sel0).getD 0 - 1 + numSelections) numSelections with
          | some ni => doneMoveEvs escEvs pg ni sel0
          | none => none
        else some (escEvs ++ [Ev.saveBar])
      | [] => some (escEvs ++ [Ev.saveBar])
  | _, _ => none

/-- The state the handler acts on: the current tab, the shared bottomBar, and
the list of `followLink(base, rel)` dispatches made so far. -/
structure World where
  t : tab
  bar : bottomBarState
  follows : List (String × String)
  deriving Repr, DecidableEq

/-- Interpretation of one handler action on the world. -/
def applyEv (w : World) (e : Ev) : World :=
  match e with
  | Ev.barLabel s => { w with bar := { w.bar with label := s } }
  | Ev.barText s => { w with bar := { w.bar with text := s } }
  | Ev.highlight s => { w with t := { w.t with view := w.t.view.map (fun v => v.Highlight s) } }
  | Ev.scrollHi => w
  | Ev.setMode m => { w with t := { w.t with mode := m } }
  | Ev.follow b r => { w with follows := w.follows ++ [(b, r)] }
  | Ev.setSel s => { w with t := { w.t with selected := s } }
  | Ev.setSelID s => { w with t := { w.t with selectedID := s } }
  | Ev.saveBar => { w with t := tab.saveBottomBar w.t w.bar }

/-- Run the key handler of the current tab on the world. -/
def runDone (w : World) (key : Key) : Option World :=
  (doneFn w.t key).map (fun evs => evs.foldl applyEv w)

/-- Folding the link-size accumulation of `Page.Size` equals adding the sum
of the byte sizes. -/
theorem foldl_add_utf8ByteSize (xs : List String) (a : Nat) :
    xs.foldl (fun n l => n + l.utf8ByteSize) a = a + (xs.map String.utf8ByteSize).sum := by
  induction xs generalizing a with
  | nil => simp
  | cons x xs ih => simp [ih]; omega

/-- Claim C1, evaluation at the failing input: pushing "A", "B", "C" into the
freshly created empty history of `makeNewTab` yields urls = [A, B, C] but
position 3, not position 2 = len(urls) - 1 as the specification requires:
`addToHistory` increments `pos` instead of setting it to `len(urls) - 1`, so
from the empty initial history the cursor permanently runs one past the end. -/
theorem addToHistory_fresh_push_eval :
    (((makeNewTab.addToHistory "A").addToHistory "B").addToHistory "C").history
        = tabHistory.mk ["A", "B", "C"] 3
    ∧ (((makeNewTab.addToHistory "A").addToHistory "B").addToHistory "C").history.pos ≠ 2 :=
  ⟨rfl, by decide⟩

/-- Claim C2, evaluation at the failing input: pressing Enter on the fresh
tab (mode Off, no highlight, zero links) is not a no-op: the handler falls
into the start-selection branch and reads `page.Links[0]` of the empty link
slice, an out-of-range access (a Go panic, modelled as `none`), instead of
leaving mode, highlight, selected and selectedID unchanged. -/
theorem enter_zero_links_out_of_range :
    runDone (World.mk makeNewTab (bottomBarState.mk "" "") []) Key.enter = none := rfl

/-- Claim C3, amended: for every terminal height `termH` and starting offset
(row, col), `pageDown` moves the viewport to `row + (termH/4)*3` and
`pageUp` to `row - (termH/4)*3`, where `/` is Go's truncated integer
division — i.e. by three times a quarter of the terminal height rounded
down, which equals `floor(0.75*termH)` only when `termH % 4 < 2` — and both
leave the horizontal offset `col` unchanged. -/
theorem pageUpDown_move_by_termH_div4_times3 (termH r c : Int) (hl : List String)
    (p : Option Page) (m : tabMode) (hist : tabHistory) (sel selID bl bt : String) :
    tab.pageDown termH (tab.mk p (some (ViewState.mk r c hl)) m hist sel selID bl bt)
      = some (tab.mk p (some (ViewState.mk (r + Int.tdiv termH 4 * 3) c hl)) m hist sel selID bl bt)
    ∧ tab.pageUp termH (tab.mk p (some (ViewState.mk r c hl)) m hist sel selID bl bt)
      = some (tab.mk p (some (ViewState.mk (r - Int.tdiv termH 4 * 3) c hl)) m hist sel selID bl bt) :=
  ⟨rfl, rfl⟩

/-- Claim C3, counterexample to the claim as stated: at terminal height 6 and
offset (0, 0), `pageDown` scrolls to row 3 = (6/4)*3, not to
row 4 = floor(0.75*6) as the claim demands. -/
theorem pageDown_not_floor_three_quarters :
    ((tab.pageDown 6 makeNewTab).bind tab.view).map ViewState.scrollRow = some 3
    ∧ ((tab.pageDown 6 makeNewTab).bind tab.view).map ViewState.scrollRow ≠ some 4 :=
  ⟨rfl, by decide⟩

/-- The concrete document of the specification's size example. -/
def sizeExamplePage : Page :=
  { Page.zero with Raw := "abc", Content := "defgh", URL := "u", Links := ["x", "yz"] }

/-- Claim C7: `Page.Size` is exactly the sum of the byte lengths of the raw
body, the rendered content, the URL, the selected text, the selected id, and
every link entry; on the concrete document of the specification it returns
3 + 5 + 1 + 0 + 0 + 1 + 2 = 12. -/
theorem Size_eq_sum_byte_lengths :
    (∀ p : Page, p.Size = p.Raw.utf8ByteSize + p.Content.utf8ByteSize + p.URL.utf8ByteSize
        + p.Selected.utf8ByteSize + p.SelectedID.utf8ByteSize
        + (p.Links.map String.utf8ByteSize).sum)
    ∧ Page.Size sizeExamplePage = 12 := by
  constructor
  · intro p
    simp only [Page.Size, foldl_add_utf8ByteSize]
  · decide

/-- Claim C8: `hasContent` is false exactly when the page or the view pointer
is nil, or the page's URL is empty, or its URL starts with the internal
"about:" scheme, or its rendered content is empty — in particular it is
false for an empty or "about:"-prefixed URL regardless of the content, and
true in every other case. -/
theorem hasContent_false_iff (t : tab) :
    tab.hasContent t = false ↔
      (t.page = none ∨ t.view = none ∨
        ∃ pg, t.page = some pg ∧
          (pg.URL = "" ∨ goHasPre "about:" pg.URL = true ∨ pg.Content = "")) := by
  obtain ⟨p, v, m, h, sel, selID, bl, bt⟩ := t
  cases p with
  | none => cases v <;> simp [tab.hasContent]
  | some pg =>
    cases v with
    | none => simp [tab.hasContent]
    | some v =>
      by_cases hU : pg.URL = "" <;> by_cases hP : goHasPre "about:" pg.URL = true <;>
        by_cases hC : pg.Content = "" <;> simp [tab.hasContent, hU, hP, hC]

/-- Claim C9: saving the scroll offset (r, c) with `saveScroll` and later
running `applyScroll` on a tab whose page still carries the stored Row and
Column (no intervening mutation of those fields) restores the viewport to
exactly (r, c). -/
theorem saveScroll_applyScroll_roundtrip
    (pg pgu : Page) (r c : Int) (hl : List String) (vu : ViewState)
    (m mu : tabMode) (hist histu : tabHistory)
    (sel selu selID selIDu bl blu bt btu : String) (t1 : tab)
    (hsave : tab.saveScroll (tab.mk (some pg) (some (ViewState.mk r c hl)) m hist sel selID bl bt)
      = some t1)
    (hrow : (tab.mk (some pgu) (some vu) mu histu selu selIDu blu btu).page.map Page.Row
      = t1.page.map Page.Row)
    (hcol : (tab.mk (some pgu) (some vu) mu histu selu selIDu blu btu).page.map Page.Column
      = t1.page.map Page.Column) :
    (tab.applyScroll (tab.mk (some pgu) (some vu) mu histu selu selIDu blu btu)).bind tab.view
      = some (ViewState.mk r c vu.highlights) := by
  simp only [tab.saveScroll] at hsave
  rw [Option.some.injEq] at hsave
  subst hsave
  simp at hrow hcol
  obtain ⟨vr, vc, vhl⟩ := vu
  simp [tab.applyScroll, hrow, hcol]

/-- Tab-arm index arithmetic: Go's truncated remainder on the cast values is
the natural-number remainder. -/
theorem tmod_succ_cast (i n : Nat) :
    Int.tmod ((i : Int) + 1) (n : Int) = (((i + 1) % n : Nat) : Int) := rfl

/-- Backtab-arm index arithmetic. -/
theorem tmod_pred_cast (i n : Nat) (hn : 0 < n) :
    Int.tmod ((i : Int) - 1 + (n : Int)) (n : Int) = (((i + n - 1) % n : Nat) : Int) := by
  have h1 : ((i : Int) - 1 + (n : Int)) = ((i + n - 1 : Nat) : Int) := by omega
  rw [h1]; rfl

/-- In-range lookup, phrased through the total `getD`. -/
theorem get?_eq_some_getD (l : List String) (n : Nat) (h : n < l.length) :
    l.get? n = some (l.getD n "") := by
  simp [List.getD_eq_getElem?_getD, List.get?_eq_getElem?, List.getElem?_eq_getElem h]

/-- In-range lookup for the bracket form. -/
theorem getElem?_eq_some_getD (l : List String) (n : Nat) (h : n < l.length) :
    l[n]? = some (l.getD n "") := by
  simp [List.getD_eq_getElem?_getD, List.getElem?_eq_getElem h]

/-- Euclidean remainder of two cast naturals is the cast natural remainder. -/
theorem natCast_emod_natCast (a b : Nat) : ((a : Int) % (b : Int)) = ((a % b : Nat) : Int) :=
  (Int.ofNat_emod _ _).symm

/-- Cast form of the Tab-arm index arithmetic. -/
theorem emod_succ_cast (i n : Nat) :
    (((i : Int) + 1) % (n : Int)) = (((i + 1) % n : Nat) : Int) := by
  have h1 : ((i : Int) + 1) = ((i + 1 : Nat) : Int) := by push_cast; ring
  rw [h1, natCast_emod_natCast]

/-- Cast form of the Backtab-arm index arithmetic. -/
theorem emod_pred_cast (i n : Nat) (hn : 0 < n) :
    (((i : Int) - 1 + (n : Int)) % (n : Int)) = (((i + n - 1) % n : Nat) : Int) := by
  have h1 : ((i : Int) - 1 + (n : Int)) = ((i + n - 1 : Nat) : Int) := by omega
  rw [h1, natCast_emod_natCast]

/-- Successor modulo `n` moves off `i` whenever there is more than one link. -/
theorem succ_mod_ne (i n : Nat) (hn : 1 < n) (hi : i < n) : (i + 1) % n ≠ i := by
  rcases Nat.lt_or_ge (i + 1) n with h | h
  · rw [Nat.mod_eq_of_lt h]; omega
  · have h2 : i + 1 = n := by omega
    rw [h2, Nat.mod_self]; omega

/-- Predecessor modulo `n` moves off `i` whenever there is more than one
link. -/
theorem pred_mod_ne (i n : Nat) (hn : 1 < n) (hi : i < n) : (i + n - 1) % n ≠ i := by
  rcases Nat.eq_zero_or_pos i with h0 | h0
  · subst h0
    rw [Nat.zero_add, Nat.mod_eq_of_lt (by omega)]
    omega
  · have h1 : i + n - 1 = n + (i - 1) := by omega
    rw [h1, Nat.add_mod_left, Nat.mod_eq_of_lt (by omega)]
    omega

set_option maxRecDepth 8192 in
/-- Full effect of a Tab or Backtab key on a selecting tab: with the
highlight id parsing to `i` and `j` the wrapped successor (Tab) or
predecessor (Backtab) index, the handler highlights `j`, shows link `j` in
the bottom bar, stores link `j` in `selected`, and copies the OLD highlight
id into `selectedID`, leaving mode, history and scroll offset unchanged. -/
theorem runDone_move_eq (pg : Page) (r c : Int) (m : tabMode) (hist : tabHistory)
    (sel selID bl bt : String) (bar : bottomBarState) (fls : List (String × String))
    (s : String) (i j : Nat) (key : Key)
    (hparse : goAtoi s = some (i : Int)) (hlt : i < pg.Links.length)
    (hkey : (key = Key.keyTab ∧ j = (i + 1) % pg.Links.length)
      ∨ (key = Key.backtab ∧ j = (i + pg.Links.length - 1) % pg.Links.length)) :
    runDone (World.mk (tab.mk (some pg) (some (ViewState.mk r c [s])) m hist sel selID bl bt)
        bar fls) key
      = some (World.mk
          (tab.mk (some pg) (some (ViewState.mk r c [goItoa (j : Int)])) m hist
            (pg.Links.getD j "") s linkLabel (pg.Links.getD j ""))
          (bottomBarState.mk linkLabel (pg.Links.getD j "")) fls) := by
  have hn : 0 < pg.Links.length := Nat.lt_of_le_of_lt (Nat.zero_le i) hlt
  have hne : (pg.Links.length : Int) ≠ 0 := by omega
  have hj : j < pg.Links.length := by
    rcases hkey with ⟨_, hjdef⟩ | ⟨_, hjdef⟩ <;> exact hjdef ▸ Nat.mod_lt _ hn
  have hDg : pg.Links.getD j "" = pg.Links.get ⟨j, hj⟩ := by
    simp [List.getD_eq_getElem?_getD, List.getElem?_eq_getElem hj]
  rw [hDg]
  have hgl : goListGet pg.Links ((j : Nat) : Int) = some (pg.Links.get ⟨j, hj⟩) := by
    simp [goListGet, List.get?_eq_getElem?, List.getElem?_eq_getElem hj]
  rcases hkey with ⟨hk, hjdef⟩ | ⟨hk, hjdef⟩ <;> subst hk
  · simp [runDone, doneFn, hparse, goTmod, hne]
    have ht : ((i : Int) + 1).tmod (pg.Links.length : Int) = ((j : Nat) : Int) := by
      rw [hjdef]; exact tmod_succ_cast i pg.Links.length
    rw [ht]
    refine ⟨[Ev.highlight (goItoa ((j : Nat) : Int)), Ev.scrollHi, Ev.barLabel linkLabel,
      Ev.barText (pg.Links.get ⟨j, hj⟩), Ev.setSel (pg.Links.get ⟨j, hj⟩), Ev.setSelID s,
      Ev.saveBar], ?_, ?_⟩
    · simp [doneMoveEvs, hgl]
    · simp [applyEv, ViewState.Highlight, tab.saveBottomBar]
  · simp [runDone, doneFn, hparse, goTmod, hne]
    have ht : (((i : Int) - 1 + (pg.Links.length : Int))).tmod (pg.Links.length : Int)
        = ((j : Nat) : Int) := by
      rw [hjdef]; exact tmod_pred_cast i pg.Links.length hn
    rw [ht]
    refine ⟨[Ev.highlight (goItoa ((j : Nat) : Int)), Ev.scrollHi, Ev.barLabel linkLabel,
      Ev.barText (pg.Links.get ⟨j, hj⟩), Ev.setSel (pg.Links.get ⟨j, hj⟩), Ev.setSelID s,
      Ev.saveBar], ?_, ?_⟩
    · simp [doneMoveEvs, hgl]
    · simp [applyEv, ViewState.Highlight, tab.saveBottomBar]

/-- Concrete page used by the witnesses: three links and a real URL. -/
def examplePage : Page :=
  { Page.zero with URL := "gemini://example.org/", Links := ["a", "b", "c"], Content := "body" }

/-- Claim C4: in link selection with the highlighted region id parsing to an
index i below the link count, a Tab key event moves the highlight to
(i+1) mod n and a Backtab key event to (i-1+n) mod n (written here as
(i+n-1) mod n over naturals), wrapping at both ends, re-highlighting the new
index and setting the bottom status bar (label "Link:") to the new link's
target URL. -/
theorem tab_backtab_wraps
    (pg : Page) (r c : Int) (m : tabMode) (hist : tabHistory)
    (sel selID bl bt : String) (bar : bottomBarState) (fls : List (String × String))
    (s : String) (i : Nat)
    (hparse : goAtoi s = some (i : Int)) (hlt : i < pg.Links.length) :
    (runDone (World.mk (tab.mk (some pg) (some (ViewState.mk r c [s])) m hist sel selID bl bt)
        bar fls) Key.keyTab).map (fun w1 => (w1.t.view, w1.bar.label, w1.bar.text))
      = some (some (ViewState.mk r c [goItoa (((i + 1) % pg.Links.length : Nat) : Int)]),
          linkLabel, pg.Links.getD ((i + 1) % pg.Links.length) "")
    ∧ (runDone (World.mk (tab.mk (some pg) (some (ViewState.mk r c [s])) m hist sel selID bl bt)
        bar fls) Key.backtab).map (fun w1 => (w1.t.view, w1.bar.label, w1.bar.text))
      = some (some (ViewState.mk r c
            [goItoa (((i + pg.Links.length - 1) % pg.Links.length : Nat) : Int)]),
          linkLabel, pg.Links.getD ((i + pg.Links.length - 1) % pg.Links.length) "") := by
  constructor
  · rw [runDone_move_eq pg r c m hist sel selID bl bt bar fls s i _ Key.keyTab hparse hlt
      (Or.inl ⟨rfl, rfl⟩)]
    rfl
  · rw [runDone_move_eq pg r c m hist sel selID bl bt bar fls s i _ Key.backtab hparse hlt
      (Or.inr ⟨rfl, rfl⟩)]
    rfl

/-- Claim C4, witness: with links [a, b, c] and highlight id "1", Tab moves
the highlight to region "2" showing link "c", and Backtab to region "0"
showing link "a". -/
theorem tab_backtab_wraps_witness :
    goAtoi "1" = some ((1 : Nat) : Int) ∧ (1 : Nat) < examplePage.Links.length ∧
    ((runDone (World.mk (tab.mk (some examplePage) (some (ViewState.mk 0 0 ["1"]))
        tabMode.modeOff (tabHistory.mk [] 0) "" "" "" "") (bottomBarState.mk "" "") [])
        Key.keyTab).map (fun w1 => (w1.t.view, w1.bar.label, w1.bar.text))
      = some (some (ViewState.mk 0 0 ["2"]), linkLabel, "c")
    ∧ (runDone (World.mk (tab.mk (some examplePage) (some (ViewState.mk 0 0 ["1"]))
        tabMode.modeOff (tabHistory.mk [] 0) "" "" "" "") (bottomBarState.mk "" "") [])
        Key.backtab).map (fun w1 => (w1.t.view, w1.bar.label, w1.bar.text))
      = some (some (ViewState.mk 0 0 ["0"]), linkLabel, "a")) :=
  ⟨rfl, by decide, tab_backtab_wraps examplePage 0 0 tabMode.modeOff (tabHistory.mk [] 0)
    "" "" "" "" (bottomBarState.mk "" "") [] "1" 1 rfl (by decide)⟩

/-- Claim C5: pressing Enter while a link is selected (the highlight id
parses to i, with i below the link count) produces exactly the trace
barLabel "", setMode Off, followLink(page URL, links[i]), saveBottomBar —
one single follow request, whose base is the document's current URL and
whose relative target is links[i], with the mode reset to Off strictly
before the follow dispatch in the trace. -/
theorem enter_selected_follows
    (pg : Page) (r c : Int) (m : tabMode) (hist : tabHistory)
    (sel selID bl bt s : String) (i : Nat)
    (hparse : goAtoi s = some (i : Int)) (hlt : i < pg.Links.length) :
    doneFn (tab.mk (some pg) (some (ViewState.mk r c [s])) m hist sel selID bl bt) Key.enter
      = some [Ev.barLabel "", Ev.setMode tabMode.modeOff,
          Ev.follow pg.URL (pg.Links.getD i ""), Ev.saveBar] := by
  have hn : 0 < pg.Links.length := Nat.lt_of_le_of_lt (Nat.zero_le i) hlt
  have hDg : pg.Links.getD i "" = pg.Links.get ⟨i, hlt⟩ := by
    simp [List.getD_eq_getElem?_getD, List.getElem?_eq_getElem hlt]
  rw [hDg]
  have hgl : goListGet pg.Links ((i : Nat) : Int) = some (pg.Links.get ⟨i, hlt⟩) := by
    simp [goListGet, List.get?_eq_getElem?, List.getElem?_eq_getElem hlt]
  simp [doneFn, hparse, hn, hgl]

/-- Claim C5, witness: Enter on highlight "1" over links [a, b, c] emits the
single follow of "b" against the page URL, after the mode reset. -/
theorem enter_selected_follows_witness :
    goAtoi "1" = some ((1 : Nat) : Int) ∧ (1 : Nat) < examplePage.Links.length ∧
    doneFn (tab.mk (some examplePage) (some (ViewState.mk 0 0 ["1"])) tabMode.modeLinkSelect
        (tabHistory.mk [] 0) "" "" "" "") Key.enter
      = some [Ev.barLabel "", Ev.setMode tabMode.modeOff,
          Ev.follow "gemini://example.org/" "b", Ev.saveBar] :=
  ⟨rfl, by decide, enter_selected_follows examplePage 0 0 tabMode.modeLinkSelect
    (tabHistory.mk [] 0) "" "" "" "" "1" 1 rfl (by decide)⟩

/-- Claim C6: if the highlighted region id does not parse as an integer when
Enter is pressed with at least one link present, the handler falls back to
index 0 and follows links[0] — it neither panics nor reports an error. -/
theorem enter_badid_falls_back
    (pg : Page) (r c : Int) (m : tabMode) (hist : tabHistory)
    (sel selID bl bt s : String)
    (hparse : goAtoi s = none) (hlinks : pg.Links ≠ []) :
    doneFn (tab.mk (some pg) (some (ViewState.mk r c [s])) m hist sel selID bl bt) Key.enter
      = some [Ev.barLabel "", Ev.setMode tabMode.modeOff,
          Ev.follow pg.URL (pg.Links.getD 0 ""), Ev.saveBar] := by
  have hn : 0 < pg.Links.length := List.length_pos.mpr hlinks
  have hDg : pg.Links.getD 0 "" = pg.Links.get ⟨0, hn⟩ := by
    simp [List.getD_eq_getElem?_getD, List.getElem?_eq_getElem hn]
  rw [hDg]
  have hgl : goListGet pg.Links 0 = some (pg.Links.get ⟨0, hn⟩) := by
    simp [goListGet, List.get?_eq_getElem?, List.getElem?_eq_getElem hn]
  simp [doneFn, hparse, hn, hgl]

/-- Claim C6, witness: Enter on the non-numeric highlight id "zz" with links
[a, b, c] follows links[0] = "a". -/
theorem enter_badid_falls_back_witness :
    goAtoi "zz" = none ∧ examplePage.Links ≠ [] ∧
    doneFn (tab.mk (some examplePage) (some (ViewState.mk 0 0 ["zz"])) tabMode.modeLinkSelect
        (tabHistory.mk [] 0) "" "" "" "") Key.enter
      = some [Ev.barLabel "", Ev.setMode tabMode.modeOff,
          Ev.follow "gemini://example.org/" "a", Ev.saveBar] :=
  ⟨rfl, by decide, enter_badid_falls_back examplePage 0 0 tabMode.modeLinkSelect
    (tabHistory.mk [] 0) "" "" "" "" "zz" rfl (by decide)⟩

/-- Claim C10: after a Tab or Backtab transition from the highlight id s
(which parses to index i), `selected` holds the NEW link links[j] while
`selectedID` still holds the pre-transition id s for index i; and whenever
the link count exceeds one, the new index j differs from i in both
directions, so the two fields refer to two different links. -/
theorem move_selected_selectedID_differ
    (pg : Page) (r c : Int) (m : tabMode) (hist : tabHistory)
    (sel selID bl bt : String) (bar : bottomBarState) (fls : List (String × String))
    (s : String) (i : Nat)
    (hparse : goAtoi s = some (i : Int)) (h1 : 1 < pg.Links.length)
    (hlt : i < pg.Links.length) :
    ((runDone (World.mk (tab.mk (some pg) (some (ViewState.mk r c [s])) m hist sel selID bl bt)
        bar fls) Key.keyTab).map (fun w1 => (w1.t.selected, w1.t.selectedID))
      = some (pg.Links.getD ((i + 1) % pg.Links.length) "", s))
    ∧ ((runDone (World.mk (tab.mk (some pg) (some (ViewState.mk r c [s])) m hist sel selID bl bt)
        bar fls) Key.backtab).map (fun w1 => (w1.t.selected, w1.t.selectedID))
      = some (pg.Links.getD ((i + pg.Links.length - 1) % pg.Links.length) "", s))
    ∧ (i + 1) % pg.Links.length ≠ i
    ∧ (i + pg.Links.length - 1) % pg.Links.length ≠ i := by
  refine ⟨?_, ?_, succ_mod_ne i _ h1 hlt, pred_mod_ne i _ h1 hlt⟩
  · rw [runDone_move_eq pg r c m hist sel selID bl bt bar fls s i _ Key.keyTab hparse hlt
      (Or.inl ⟨rfl, rfl⟩)]
    rfl
  · rw [runDone_move_eq pg r c m hist sel selID bl bt bar fls s i _ Key.backtab hparse hlt
      (Or.inr ⟨rfl, rfl⟩)]
    rfl

/-- Claim C10, witness: from highlight id "1" over links [a, b, c], Tab
leaves selected = "c" (index 2) and selectedID = "1" (index 1); Backtab
leaves selected = "a" (index 0) and selectedID = "1". -/
theorem move_selected_selectedID_differ_witness :
    goAtoi "1" = some ((1 : Nat) : Int) ∧ (1 : Nat) < examplePage.Links.length ∧
    (((runDone (World.mk (tab.mk (some examplePage) (some (ViewState.mk 0 0 ["1"]))
        tabMode.modeOff (tabHistory.mk [] 0) "" "" "" "") (bottomBarState.mk "" "") [])
        Key.keyTab).map (fun w1 => (w1.t.selected, w1.t.selectedID)) = some ("c", "1"))
    ∧ ((runDone (World.mk (tab.mk (some examplePage) (some (ViewState.mk 0 0 ["1"]))
        tabMode.modeOff (tabHistory.mk [] 0) "" "" "" "") (bottomBarState.mk "" "") [])
        Key.backtab).map (fun w1 => (w1.t.selected, w1.t.selectedID)) = some ("a", "1"))
    ∧ (1 + 1) % examplePage.Links.length ≠ 1
    ∧ (1 + examplePage.Links.length - 1) % examplePage.Links.length ≠ 1) :=
  ⟨rfl, by decide, move_selected_selectedID_differ examplePage 0 0 tabMode.modeOff
    (tabHistory.mk [] 0) "" "" "" "" (bottomBarState.mk "" "") [] "1" 1 rfl
    (by decide) (by decide)⟩

/-- Claim C9, witness: a concrete round trip through `saveScroll` and
`applyScroll` restores the offset (5, 7). -/
theorem saveScroll_applyScroll_roundtrip_witness :
    (tab.applyScroll (tab.mk (some { Page.zero with Row := 5, Column := 7 })
        (some (ViewState.mk 0 0 [])) tabMode.modeOff (tabHistory.mk [] 0) "" "" "" "")).bind tab.view
      = some (ViewState.mk 5 7 []) :=
  saveScroll_applyScroll_roundtrip Page.zero { Page.zero with Row := 5, Column := 7 }
    5 7 [] (ViewState.mk 0 0 []) tabMode.modeOff tabMode.modeOff
    (tabHistory.mk [] 0) (tabHistory.mk [] 0) "" "" "" "" "" "" "" ""
    (tab.mk (some { Page.zero with Row := 5, Column := 7 })
      (some (ViewState.mk 5 7 [])) tabMode.modeOff (tabHistory.mk [] 0) "" "" "" "")
    rfl rfl rfl

end Amfora
